import Mathlib

/-!
Verification of the daily-bulletin content-extraction and PDF pipeline
(`src/simple_pdf_generator.py`) against its natural-language specification.

The HTML DOM is embedded as a mutual inductive tree (`Node`/`Forest`);
BeautifulSoup operations used by the program (`get_text`, `find_all`,
`decompose`, CSS container selection, attribute access) are translated as
executable functions over that tree.  `readability.Document` is an external
library: the extractor is therefore modelled as a function of the readability
result and the original document, exactly mirroring the code from the point
where both are in hand (line 78 onward of `extract_article_content`).
Python's `uuid.uuid4()` is modelled as an injective fresh-token generator
driven by a counter, and floating-point page arithmetic is modelled over `ℚ`.
-/

mutual

inductive Node where
| text : String → Node
| elem : String → List (String × String) → Forest → Node

inductive Forest where
| nil : Forest
| cons : Node → Forest → Forest

end

mutual

/-- Concatenated text of all text nodes, in document order
(BeautifulSoup `get_text()`). -/
def getTextNode : Node → String
| .text s => s
| .elem _ _ kids => getTextForest kids

def getTextForest : Forest → String
| .nil => ""
| .cons n rest => getTextNode n ++ getTextForest rest

end

mutual

/-- Pre-order (document-order) collection of the nodes satisfying a predicate,
the shape shared by `find_all` and `select`. -/
def collectNode (p : Node → Bool) : Node → List Node
| .text s => if p (.text s) then [.text s] else []
| .elem t a kids =>
    (if p (.elem t a kids) then [Node.elem t a kids] else []) ++ collectForest p kids

def collectForest (p : Node → Bool) : Forest → List Node
| .nil => []
| .cons n rest => collectNode p n ++ collectForest p rest

end

/-- BeautifulSoup `find_all(names)`: all elements whose tag name is in the
list, in document order (text nodes never match). -/
def findAllForest (tags : List String) (f : Forest) : List Node :=
  collectForest (fun n => match n with
    | .elem t _ _ => tags.contains t
    | .text _ => false) f

/-- `tag.decompose()` applied to every element whose name is in `tags`
(the whole subtree of a matching element is removed). -/
def stripTags (tags : List String) : Forest → Forest
| .nil => .nil
| .cons (.text s) rest => .cons (.text s) (stripTags tags rest)
| .cons (.elem t a kids) rest =>
    if tags.contains t then stripTags tags rest
    else .cons (.elem t a (stripTags tags kids)) (stripTags tags rest)

def isSpaceChar (c : Char) : Bool :=
  c = ' ' || c = '\t' || c = '\n' || c = '\r'

def dropLeadingSpace : List Char → List Char
| [] => []
| c :: cs => if isSpaceChar c then dropLeadingSpace cs else c :: cs

/-- Python `str.strip()`: whitespace removed from both ends (structural model,
since the library `String.trim` does not reduce in the kernel). -/
def pyStrip (s : String) : String :=
  String.mk ((dropLeadingSpace (dropLeadingSpace s.data).reverse).reverse)

def splitOnSpace : List Char → List Char → List String
| [], acc => [String.mk acc.reverse]
| c :: cs, acc =>
    if c = ' ' then String.mk acc.reverse :: splitOnSpace cs []
    else splitOnSpace cs (c :: acc)

/-- Attribute lookup on a node (`element.get(key)`); `none` for text nodes. -/
def nodeAttr (n : Node) (k : String) : Option String :=
  match n with
  | .elem _ a _ => a.lookup k
  | .text _ => none

/-- The class attribute split into whitespace-separated tokens, as CSS class
matching sees it. -/
def classTokens (a : List (String × String)) : List String :=
  match a.lookup "class" with
  | some s => splitOnSpace s.data []
  | none => []

def hasClass (c : String) (a : List (String × String)) : Bool :=
  (classTokens a).contains c

/-- One element matches the container selector list
`article, .article, .post, .content, .post-content, [role="main"]`
(line 91 of the source). -/
def matchesContainer (n : Node) : Bool :=
  match n with
  | .text _ => false
  | .elem t a _ =>
      t == "article" || hasClass "article" a || hasClass "post" a ||
      hasClass "content" a || hasClass "post-content" a ||
      a.lookup "role" == some "main"

/-- `original_soup.select('article, .article, .post, .content, .post-content,
[role="main"]')` — matching elements in document order. -/
def selectContainers (f : Forest) : List Node :=
  collectForest matchesContainer f

/-- Unwanted-element names stripped from the readability result (line 81). -/
def unwantedTags : List String :=
  ["script", "style", "nav", "footer", "header", "aside"]

/-- The removal list used on the fallback container (line 98).  The source
passes the class patterns as entries of a `find_all` NAME list, so they match
tag names, not classes; the model keeps them verbatim. -/
def fallbackRemoveTags : List String :=
  ["script", "style", "nav", "footer", "header", "aside",
   ".ad", ".advertisement", ".social-share", ".related-posts"]

/-- Strip `fallbackRemoveTags` from the descendants of the chosen container
(`article_container.find_all([...])` does not include the container itself). -/
def stripContainer (n : Node) : Node :=
  match n with
  | .text s => .text s
  | .elem t a kids => .elem t a (stripTags fallbackRemoveTags kids)

inductive Source where
| READABILITY : Source
| CONTAINER_FALLBACK : Source
deriving DecidableEq

structure ExtractedArticle where
  title : String
  content : Forest
  source : Source

/-- Forest of a single root, for containers re-parsed as their own soup
(`BeautifulSoup(str(article_container))`). -/
def singleton (n : Node) : Forest := .cons n .nil

/-- Lines 78–105 of `extract_article_content`: clean the readability result,
apply the 500-character quality gate, and fall back to the first matching
container of the raw document when the gate fails and a container exists. -/
def extract_article_content (title : String) (readability original : Forest) :
    ExtractedArticle :=
  let cleaned := stripTags unwantedTags readability
  if (pyStrip (getTextForest cleaned)).length < 500 then
    match selectContainers original with
    | c :: _ => ⟨title, singleton (stripContainer c), Source.CONTAINER_FALLBACK⟩
    | [] => ⟨title, cleaned, Source.READABILITY⟩
  else ⟨title, cleaned, Source.READABILITY⟩

/-- All elements carrying a given CSS class, in document order (observable used
to show that class-tagged descendants survive the fallback strip). -/
def classElems (c : String) (f : Forest) : List Node :=
  collectForest (fun n => match n with
    | .elem _ a _ => hasClass c a
    | .text _ => false) f

/-- C3: when the cleaned readability result has plain-text length below 500 and
the raw document contains at least one element matching the article-container
selectors, the extractor returns the first such container (document order,
unwanted elements stripped) with source `CONTAINER_FALLBACK`. -/
theorem c3_fallback_trigger (title : String) (readability original : Forest)
    (c : Node) (rest : List Node)
    (hshort : (pyStrip (getTextForest (stripTags unwantedTags readability))).length < 500)
    (hsel : selectContainers original = c :: rest) :
    (extract_article_content title readability original).source = Source.CONTAINER_FALLBACK
    ∧ (extract_article_content title readability original).content
        = singleton (stripContainer c) := by
  have h : extract_article_content title readability original
      = ⟨title, singleton (stripContainer c), Source.CONTAINER_FALLBACK⟩ := by
    simp only [extract_article_content]
    rw [if_pos hshort, hsel]
  exact ⟨by rw [h], by rw [h]⟩

/-- Concrete container element used by the fallback witnesses. -/
def exArticleNode : Node :=
  Node.elem "article" [] (singleton (Node.text "hello"))

/-- Witness for `c3_fallback_trigger` at a concrete short document. -/
theorem c3_fallback_trigger_witness :
    (extract_article_content "T" Forest.nil (singleton exArticleNode)).source
        = Source.CONTAINER_FALLBACK
    ∧ (extract_article_content "T" Forest.nil (singleton exArticleNode)).content
        = singleton (stripContainer exArticleNode) :=
  c3_fallback_trigger "T" Forest.nil (singleton exArticleNode) exArticleNode []
    (by decide) (by rfl)

/-- C9: when the cleaned readability text is below the 500-character threshold
and no article-container selector matches the raw document, the extractor
returns the original (possibly short) readability result, never an error. -/
theorem c9_short_content_never_fails (title : String) (readability original : Forest)
    (hshort : (pyStrip (getTextForest (stripTags unwantedTags readability))).length < 500)
    (hsel : selectContainers original = []) :
    extract_article_content title readability original
      = ⟨title, stripTags unwantedTags readability, Source.READABILITY⟩ := by
  simp only [extract_article_content]
  rw [if_pos hshort, hsel]

/-- Witness for `c9_short_content_never_fails` at a concrete short document. -/
theorem c9_short_content_never_fails_witness :
    extract_article_content "T"
        (singleton (Node.elem "p" [] (singleton (Node.text "hi")))) Forest.nil
      = ⟨"T",
         stripTags unwantedTags
           (singleton (Node.elem "p" [] (singleton (Node.text "hi")))),
         Source.READABILITY⟩ :=
  c9_short_content_never_fails "T"
    (singleton (Node.elem "p" [] (singleton (Node.text "hi")))) Forest.nil
    (by decide) (by rfl)

/-- An ad-classed element inside the fallback container. -/
def exAdDiv : Node :=
  Node.elem "div" [("class", "ad")] (singleton (Node.text "BUY NOW"))

/-- Raw document whose only container holds an ad-classed descendant. -/
def exC6Doc : Forest :=
  singleton (Node.elem "article" []
    (Forest.cons exAdDiv (singleton (Node.elem "p" [] (singleton (Node.text "short"))))))

/-- C6: the fallback strip passes the class patterns (`.ad`, `.advertisement`,
`.social-share`, `.related-posts`) to `find_all` as tag names, which never
match class-tagged elements, so an `ad`-classed descendant survives in the
returned `content_html` — the code contradicts the intended removal. -/
theorem c6_ad_class_strip_ineffective :
    (extract_article_content "T" Forest.nil exC6Doc).source = Source.CONTAINER_FALLBACK
    ∧ ((classElems "ad" (extract_article_content "T" Forest.nil exC6Doc).content).map
        getTextNode) = ["BUY NOW"] :=
  ⟨rfl, rfl⟩

/-- Python truthiness of an optional string attribute (present and nonempty). -/
def truthyOpt : Option String → Bool
| some s => !(s == "")
| none => false

def digitsVal : List Char → Nat → Option Nat
| [], acc => some acc
| c :: cs, acc =>
    if c.isDigit then digitsVal cs (acc * 10 + (c.toNat - '0'.toNat)) else none

/-- Python `int(str)`: surrounding whitespace stripped, optional sign, decimal
digits; `none` models the `ValueError` path. -/
def pyToInt (s : String) : Option Int :=
  match (pyStrip s).data with
  | [] => none
  | '-' :: cs =>
      match cs with
      | [] => none
      | _ :: _ => (digitsVal cs 0).map (fun n => -(n : Int))
  | '+' :: cs =>
      match cs with
      | [] => none
      | _ :: _ => (digitsVal cs 0).map (fun n => (n : Int))
  | cs => (digitsVal cs 0).map (fun n => (n : Int))

def charsLeadWith : List Char → List Char → Bool
| [], _ => true
| _ :: _, [] => false
| c :: cs, d :: ds => c = d && charsLeadWith cs ds

/-- `s.startswith(pat)` (structural model of `String.startsWith`). -/
def strBeginsWith (s pat : String) : Bool :=
  charsLeadWith pat.data s.data

/-- Lines 58–65 of the source: the anti-icon filter skips an image exactly when
both dimension attributes are truthy and both parse as integers with either
parsed value below 50 (a parse failure falls through and keeps the image). -/
def sizeSkip (a : List (String × String)) : Bool :=
  match a.lookup "width", a.lookup "height" with
  | some w, some h =>
      if w == "" || h == "" then false
      else
        match pyToInt w with
        | none => false
        | some wi =>
            match pyToInt h with
            | none => false
            | some hi => decide (wi < 50) || decide (hi < 50)
  | _, _ => false

/-- Lines 55–70 of `extract_article_content`, decision for one `<img>`:
skip when `src` is missing or empty; skip by the size filter; skip data URIs;
otherwise keep the RAW `src` attribute value. -/
def harvestRule (a : List (String × String)) : Option String :=
  (a.lookup "src").bind (fun src =>
    if src == "" then none
    else if sizeSkip a then none
    else if strBeginsWith src "data:" then none
    else some src)

/-- The `original_images` list built from the raw document (document order). -/
def harvestImages (soup : Forest) : List String :=
  (findAllForest ["img"] soup).filterMap (fun n => match n with
    | .elem _ a _ => harvestRule a
    | .text _ => none)

/-- A kept value always comes straight from the `src` attribute. -/
theorem harvestRule_src (a : List (String × String)) (u : String)
    (h : harvestRule a = some u) : a.lookup "src" = some u := by
  unfold harvestRule at h
  rw [Option.bind_eq_some] at h
  obtain ⟨s, hs, hf⟩ := h
  split_ifs at hf with h1 h2 h3
  cases Option.some.inj hf
  exact hs

/-- Both dimension attributes are absent, or at least one present value fails
to parse as an integer. -/
def dimsUnusable (a : List (String × String)) : Prop :=
  match a.lookup "width", a.lookup "height" with
  | some w, some h => pyToInt w = none ∨ pyToInt h = none
  | _, _ => True

/-- A string the Python `int()` accepts is nonempty. -/
theorem pyToInt_ne_empty (s : String) (i : Int) (h : pyToInt s = some i) :
    s ≠ "" := by
  intro he
  rw [he] at h
  have hnone : pyToInt "" = none := rfl
  rw [hnone] at h
  exact Option.noConfusion h

/-- Small parsed dimensions force the size filter. -/
theorem sizeSkip_of_small (a : List (String × String)) (w h : String)
    (wi hi : Int) (hw : a.lookup "width" = some w) (hh : a.lookup "height" = some h)
    (hwi : pyToInt w = some wi) (hhi : pyToInt h = some hi)
    (hsmall : wi < 50 ∨ hi < 50) : sizeSkip a = true := by
  unfold sizeSkip
  rw [hw, hh]
  have hwne : (w == "") = false := beq_eq_false_iff_ne.mpr (pyToInt_ne_empty w wi hwi)
  have hhne : (h == "") = false := beq_eq_false_iff_ne.mpr (pyToInt_ne_empty h hi hhi)
  simp [hwne, hhne, hwi, hhi, hsmall]

/-- Unusable dimensions never trigger the size filter. -/
theorem sizeSkip_of_unusable (a : List (String × String))
    (hdims : dimsUnusable a) : sizeSkip a = false := by
  unfold dimsUnusable at hdims
  unfold sizeSkip
  cases hw : a.lookup "width" with
  | none => simp
  | some w =>
    cases hh : a.lookup "height" with
    | none => simp
    | some h =>
      rw [hw, hh] at hdims
      cases hpw : pyToInt w with
      | none => simp [hpw]
      | some wi =>
        cases hph : pyToInt h with
        | none => simp [hpw, hph]
        | some hi =>
          exfalso
          rcases hdims with hl | hr
          · rw [hpw] at hl; exact Option.noConfusion hl
          · rw [hph] at hr; exact Option.noConfusion hr

/-- C7: the harvested set excludes data-URI sources and any image whose width
and height attributes both parse as integers with either below 50; an image
whose dimension attributes are absent or unparseable is kept (given a
nonempty, non-data `src`). -/
theorem c7_harvest_filter (soup : Forest) :
    (∀ u ∈ harvestImages soup, strBeginsWith u "data:" = false)
    ∧ (∀ (a : List (String × String)) (w h : String) (wi hi : Int),
         a.lookup "width" = some w → a.lookup "height" = some h →
         pyToInt w = some wi → pyToInt h = some hi → (wi < 50 ∨ hi < 50) →
         harvestRule a = none)
    ∧ (∀ (a : List (String × String)) (u : String),
         a.lookup "src" = some u → u ≠ "" → strBeginsWith u "data:" = false →
         dimsUnusable a → harvestRule a = some u) := by
  refine ⟨?_, ?_, ?_⟩
  · intro u hu
    unfold harvestImages at hu
    rw [List.mem_filterMap] at hu
    obtain ⟨n, _, hr⟩ := hu
    cases n with
    | text s => exact absurd hr (by simp)
    | elem t a kids =>
      have hr2 : harvestRule a = some u := hr
      unfold harvestRule at hr2
      rw [Option.bind_eq_some] at hr2
      obtain ⟨s, hs, hf⟩ := hr2
      split_ifs at hf with h1 h2 h3
      cases Option.some.inj hf
      simpa using h3
  · intro a w h wi hi hw hh hwi hhi hsmall
    unfold harvestRule
    cases hs : a.lookup "src" with
    | none => rfl
    | some s =>
      show (if s == "" then none
            else if sizeSkip a then none
            else if strBeginsWith s "data:" then none
            else some s) = none
      simp [sizeSkip_of_small a w h wi hi hw hh hwi hhi hsmall]
  · intro a u hsrc hne hdata hdims
    unfold harvestRule
    rw [hsrc]
    show (if u == "" then none
          else if sizeSkip a then none
          else if strBeginsWith u "data:" then none
          else some u) = some u
    simp [beq_eq_false_iff_ne.mpr hne, sizeSkip_of_unusable a hdims, hdata]

/-- Three-image raw document exercising all three filter paths. -/
def exHarvestDoc : Forest :=
  Forest.cons (Node.elem "img"
      [("src", "tiny.png"), ("width", "30"), ("height", "30")] Forest.nil)
  (Forest.cons (Node.elem "img" [("src", "data:abc")] Forest.nil)
  (Forest.cons (Node.elem "img"
      [("src", "big.png"), ("width", "banner")] Forest.nil) Forest.nil))

/-- Witness for `c7_harvest_filter` at a concrete three-image document. -/
theorem c7_harvest_filter_witness :
    strBeginsWith "big.png" "data:" = false
    ∧ harvestRule [("src", "tiny.png"), ("width", "30"), ("height", "30")] = none
    ∧ harvestRule [("src", "big.png"), ("width", "banner")] = some "big.png" :=
  ⟨(c7_harvest_filter exHarvestDoc).1 "big.png" (by decide),
   (c7_harvest_filter exHarvestDoc).2.1
     [("src", "tiny.png"), ("width", "30"), ("height", "30")]
     "30" "30" 30 30 rfl rfl (by decide) (by decide) (Or.inl (by decide)),
   (c7_harvest_filter exHarvestDoc).2.2
     [("src", "big.png"), ("width", "banner")] "big.png"
     rfl (by decide) (by decide) (by trivial)⟩

/-- Raw document with one relative-source image. -/
def exC5Doc : Forest :=
  singleton (Node.elem "img" [("src", "/a.png")] Forest.nil)

/-- C5 counterexample: harvesting a relative `src` stores the raw attribute
value, not an absolute URL — the harvested list for a document whose only
image has `src="/a.png"` is exactly `["/a.png"]`, which carries no scheme. -/
theorem c5_counterexample :
    harvestImages exC5Doc = ["/a.png"]
    ∧ strBeginsWith "/a.png" "http" = false :=
  ⟨rfl, by decide⟩

/-- C5 (amended): every harvested `source_url` is the raw `src` attribute
value of some `<img>` element of the raw document, exactly as written there;
resolution against the base URL is deferred to `download_image`. -/
theorem c5_harvest_stores_raw_src (soup : Forest) (u : String)
    (hu : u ∈ harvestImages soup) :
    ∃ n, n ∈ findAllForest ["img"] soup ∧ nodeAttr n "src" = some u := by
  unfold harvestImages at hu
  rw [List.mem_filterMap] at hu
  obtain ⟨n, hn, hr⟩ := hu
  refine ⟨n, hn, ?_⟩
  cases n with
  | text s => exact absurd hr (by simp)
  | elem t a kids =>
    have hr2 : harvestRule a = some u := hr
    exact harvestRule_src a u hr2

/-- Witness for `c5_harvest_stores_raw_src` at the relative-source document. -/
theorem c5_harvest_stores_raw_src_witness :
    ∃ n, n ∈ findAllForest ["img"] exC5Doc ∧ nodeAttr n "src" = some "/a.png" :=
  c5_harvest_stores_raw_src exC5Doc "/a.png" (by decide)

/-- `uuid.uuid4()` modelled as an injective fresh-token generator driven by a
counter: distinct counters give distinct opaque id strings. -/
def uuidTok (n : Nat) : String :=
  String.mk (List.replicate (n + 1) 'u')

/-- One entry of the `images` list: `{'id': ..., 'src': ..., 'alt': ...}`. -/
structure ImageRef where
  id : String
  src : String
  alt : String

/-- Python dict assignment `img[k] = v` on the attribute map (attribute keys
stay unique, as in a BeautifulSoup attrs dict). -/
def setAttr (a : List (String × String)) (k v : String) : List (String × String) :=
  a.filter (fun kv => !(k == kv.1)) ++ [(k, v)]

/-- `<img>` elements with a truthy `src` — exactly the elements the tagging
walk of lines 111–120 processes. -/
def isSrcImg (n : Node) : Bool :=
  match n with
  | .elem t a _ => t == "img" && truthyOpt (a.lookup "src")
  | .text _ => false

def srcImgs (f : Forest) : List Node := collectForest isSrcImg f

def imgIdOf (n : Node) : Option String := nodeAttr n "data-img-id"

mutual

/-- Lines 111–120: walk the images of the content in document order; for each
image with a truthy `src`, mint a fresh id, set `data-img-id` on the element
and record an ImageRef carrying that id, the `src`, and `alt` (default empty). -/
def tagImgsNode : Node → Nat → Node × List ImageRef × Nat
| .text s, ctr => (.text s, [], ctr)
| .elem t a kids, ctr =>
    if isSrcImg (.elem t a kids) then
      let r := tagImgsForest kids (ctr + 1)
      (.elem t (setAttr a "data-img-id" (uuidTok ctr)) r.1,
       ⟨uuidTok ctr, (a.lookup "src").getD "", (a.lookup "alt").getD ""⟩ :: r.2.1,
       r.2.2)
    else
      let r := tagImgsForest kids ctr
      (.elem t a r.1, r.2.1, r.2.2)

def tagImgsForest : Forest → Nat → Forest × List ImageRef × Nat
| .nil, ctr => (.nil, [], ctr)
| .cons n rest, ctr =>
    let r1 := tagImgsNode n ctr
    let r2 := tagImgsForest rest r1.2.2
    (.cons r1.1 r2.1, r1.2.1 ++ r2.2.1, r2.2.2)

end

/-- Traversal state of the synthesis loop: flat paragraph index (`i` of
`enumerate`), harvested-image cursor (`img_index`), and the fresh-id counter. -/
structure InsState where
  pIdx : Nat
  imgIdx : Nat
  ctr : Nat

/-- Lines 127–145: visit the paragraphs in document order; for the paragraph
at 0-based flat index `i` with `i > 0`, `i % 3 == 0` and harvested images
remaining, insert a fresh-tagged `<img>` as its immediate next sibling,
consuming `original_images` in order and recording an ImageRef with empty
`alt`. -/
def insertImgsForest (orig : List String) :
    Forest → InsState → Forest × List ImageRef × InsState
| .nil, st => (.nil, [], st)
| .cons (.text s) rest, st =>
    let r := insertImgsForest orig rest st
    (.cons (.text s) r.1, r.2.1, r.2.2)
| .cons (.elem t a kids) rest, st =>
    if t == "p" then
      if 0 < st.pIdx ∧ st.pIdx % 3 = 0 ∧ st.imgIdx < orig.length then
        let u := orig.getD st.imgIdx ""
        let rk := insertImgsForest orig kids ⟨st.pIdx + 1, st.imgIdx + 1, st.ctr + 1⟩
        let rr := insertImgsForest orig rest rk.2.2
        (.cons (.elem t a rk.1)
           (.cons (.elem "img" [("src", u), ("data-img-id", uuidTok st.ctr)] .nil) rr.1),
         ⟨uuidTok st.ctr, u, ""⟩ :: (rk.2.1 ++ rr.2.1),
         rr.2.2)
      else
        let rk := insertImgsForest orig kids ⟨st.pIdx + 1, st.imgIdx, st.ctr⟩
        let rr := insertImgsForest orig rest rk.2.2
        (.cons (.elem t a rk.1) rr.1, rk.2.1 ++ rr.2.1, rr.2.2)
    else
      let rk := insertImgsForest orig kids st
      let rr := insertImgsForest orig rest rk.2.2
      (.cons (.elem t a rk.1) rr.1, rk.2.1 ++ rr.2.1, rr.2.2)

/-- Lines 107–145, Image Placement Resolution: tag the images already present
in the content; when that walk found none and the harvested list is nonempty,
synthesize placements by interleaving harvested images into the paragraph
sequence. -/
def processImages (soup : Forest) (originalImages : List String) :
    Forest × List ImageRef :=
  let r := tagImgsForest soup 0
  if r.2.1.isEmpty && !originalImages.isEmpty then
    let ri := insertImgsForest originalImages r.1 ⟨0, 0, 0⟩
    (ri.1, ri.2.1)
  else
    (r.1, r.2.1)

def isImgHead : Forest → Bool
| .cons (.elem t _ _) _ => t == "img"
| _ => false

/-- Texts of the paragraphs whose immediate next sibling is an `<img>` — the
observable the interleaving scenario speaks about. -/
def parasFollowedByImg : Forest → List String
| .nil => []
| .cons (.text _) rest => parasFollowedByImg rest
| .cons (.elem t _ kids) rest =>
    (if t == "p" && isImgHead rest then [getTextForest kids] else [])
      ++ parasFollowedByImg kids ++ parasFollowedByImg rest

def pEx (s : String) : Node := Node.elem "p" [] (singleton (Node.text s))

/-- Ten-paragraph content with zero images (the C2 scenario content). -/
def exC2Content : Forest :=
  .cons (pEx "P1") (.cons (pEx "P2") (.cons (pEx "P3") (.cons (pEx "P4")
  (.cons (pEx "P5") (.cons (pEx "P6") (.cons (pEx "P7") (.cons (pEx "P8")
  (.cons (pEx "P9") (.cons (pEx "P10") .nil)))))))))

def exC2Imgs : List String := ["u1", "u2", "u3", "u4"]

/-- C2 counterexample: with 10 paragraphs, zero content images and 4 harvested
images, paragraph 2 is NOT followed by a synthesized image — the loop
condition `i > 0 and i % 3 == 0` over `enumerate` (0-based) fires at flat
indices 3, 6, 9, i.e. after 1-indexed paragraphs 4, 7, 10, not 2, 5, 8. -/
theorem c2_counterexample :
    "P2" ∉ parasFollowedByImg (processImages exC2Content exC2Imgs).1 := by
  decide

/-- C2 (amended): in that scenario the synthesized placements appear
immediately after paragraphs 4, 7 and 10 (1-indexed), consuming exactly the
first 3 harvested images in harvest order and leaving the 4th unused. -/
theorem c2_interleave_after_4_7_10 :
    parasFollowedByImg (processImages exC2Content exC2Imgs).1 = ["P4", "P7", "P10"]
    ∧ (processImages exC2Content exC2Imgs).2.map (fun r => r.src) = ["u1", "u2", "u3"] := by
  exact ⟨by decide, by decide⟩

/-- Distinct counters yield distinct id tokens. -/
theorem uuidTok_inj (m n : Nat) (h : uuidTok m = uuidTok n) : m = n := by
  have h2 : (uuidTok m).length = (uuidTok n).length := by rw [h]
  simp [uuidTok, String.length] at h2
  omega

/-- The ids minted by a run of the fresh-token counter starting at `s`. -/
def idsFrom : Nat → Nat → List String
| _, 0 => []
| s, k + 1 => uuidTok s :: idsFrom (s + 1) k

theorem idsFrom_append (m : Nat) : ∀ (n s : Nat),
    idsFrom s (m + n) = idsFrom s m ++ idsFrom (s + m) n := by
  induction m with
  | zero => intro n s; simp [idsFrom]
  | succ m ih =>
    intro n s
    have h1 : m + 1 + n = (m + n) + 1 := by omega
    rw [h1]
    show uuidTok s :: idsFrom (s + 1) (m + n) = _
    rw [ih n (s + 1)]
    have h2 : s + 1 + m = s + (m + 1) := by omega
    rw [h2]
    rfl

theorem mem_idsFrom : ∀ (k s : Nat) (x : String), x ∈ idsFrom s k →
    ∃ m, s ≤ m ∧ x = uuidTok m := by
  intro k
  induction k with
  | zero => intro s x hx; exact absurd hx (by simp [idsFrom])
  | succ k ih =>
    intro s x hx
    rw [idsFrom] at hx
    rcases List.mem_cons.mp hx with h | h
    · exact ⟨s, Nat.le_refl s, h⟩
    · obtain ⟨m, hm, he⟩ := ih (s + 1) x h
      exact ⟨m, by omega, he⟩

theorem idsFrom_nodup : ∀ (k s : Nat), (idsFrom s k).Nodup := by
  intro k
  induction k with
  | zero => intro s; simp [idsFrom]
  | succ k ih =>
    intro s
    rw [idsFrom]
    refine List.nodup_cons.mpr ⟨?_, ih (s + 1)⟩
    intro hmem
    obtain ⟨m, hm, he⟩ := mem_idsFrom k (s + 1) (uuidTok s) hmem
    have := uuidTok_inj s m he
    omega

theorem lookup_setAttr_same (a : List (String × String)) (k v : String) :
    (setAttr a k v).lookup k = some v := by
  unfold setAttr
  induction a with
  | nil => simp [List.lookup]
  | cons kv rest ih =>
    cases h : (k == kv.1) with
    | true => simpa [List.filter_cons, h] using ih
    | false => simpa [List.filter_cons, h, List.lookup] using ih

theorem lookup_setAttr_other (a : List (String × String)) (k v k2 : String)
    (hne : (k2 == k) = false) : (setAttr a k v).lookup k2 = a.lookup k2 := by
  unfold setAttr
  induction a with
  | nil => simp [List.lookup, hne]
  | cons kv rest ih =>
    obtain ⟨k1, v1⟩ := kv
    cases h : (k == k1) with
    | true =>
      have hkv : k = k1 := by simpa using h
      have h2 : (k2 == k1) = false := by rw [← hkv]; exact hne
      simp only [List.filter_cons, h, Bool.not_true]
      simp only [List.lookup_cons, h2]
      exact ih
    | false =>
      cases h3 : (k2 == k1) with
      | true =>
        simp [List.filter_cons, h, List.lookup_cons, h3]
      | false =>
        simp only [List.filter_cons, h, Bool.not_false, if_pos trivial,
          List.cons_append, List.lookup_cons, h3]
        exact ih

mutual

/-- Tagging walk invariant, node form: the id attributes of the tagged
src-images read back, in order, as exactly the recorded ImageRef ids; those
ids are a run of fresh tokens starting at the incoming counter. -/
theorem tagImgsNode_spec : ∀ (n : Node) (ctr : Nat),
    (collectNode isSrcImg (tagImgsNode n ctr).1).map imgIdOf
        = (tagImgsNode n ctr).2.1.map (fun r => some r.id)
    ∧ (tagImgsNode n ctr).2.1.map (fun r => r.id)
        = idsFrom ctr (tagImgsNode n ctr).2.1.length
    ∧ (tagImgsNode n ctr).2.2 = ctr + (tagImgsNode n ctr).2.1.length
| .text s, ctr => by
    refine ⟨?_, ?_, ?_⟩ <;> simp [tagImgsNode, collectNode, isSrcImg, idsFrom]
| .elem t a kids, ctr => by
    cases hg : isSrcImg (.elem t a kids) with
    | false =>
      obtain ⟨jh1, jh2, jh3⟩ := tagImgsForest_spec kids ctr
      have heq : tagImgsNode (.elem t a kids) ctr
          = (.elem t a (tagImgsForest kids ctr).1,
             (tagImgsForest kids ctr).2.1, (tagImgsForest kids ctr).2.2) := by
        simp [tagImgsNode, hg]
      rw [heq]
      have hg2 : isSrcImg (.elem t a (tagImgsForest kids ctr).1) = false := hg
      refine ⟨?_, jh2, jh3⟩
      rw [collectNode]
      simp only [hg2, Bool.false_eq_true, if_false, List.nil_append]
      exact jh1
    | true =>
      obtain ⟨ih1, ih2, ih3⟩ := tagImgsForest_spec kids (ctr + 1)
      have heq : tagImgsNode (.elem t a kids) ctr
          = (.elem t (setAttr a "data-img-id" (uuidTok ctr))
               (tagImgsForest kids (ctr + 1)).1,
             ⟨uuidTok ctr, (a.lookup "src").getD "", (a.lookup "alt").getD ""⟩
               :: (tagImgsForest kids (ctr + 1)).2.1,
             (tagImgsForest kids (ctr + 1)).2.2) := by
        simp [tagImgsNode, hg]
      rw [heq]
      have hsrc : (setAttr a "data-img-id" (uuidTok ctr)).lookup "src"
          = a.lookup "src" :=
        lookup_setAttr_other a "data-img-id" (uuidTok ctr) "src" (by decide)
      have hg' : (t == "img" && truthyOpt (a.lookup "src")) = true := hg
      have hg2 : isSrcImg (.elem t (setAttr a "data-img-id" (uuidTok ctr))
          (tagImgsForest kids (ctr + 1)).1) = true := by
        show (t == "img"
          && truthyOpt ((setAttr a "data-img-id" (uuidTok ctr)).lookup "src")) = true
        rw [hsrc]
        exact hg'
      refine ⟨?_, ?_, ?_⟩
      · rw [collectNode, if_pos hg2]
        simp only [List.singleton_append, List.map_cons]
        rw [ih1]
        congr 1
        show imgIdOf (.elem t _ _) = some (uuidTok ctr)
        simp only [imgIdOf, nodeAttr]
        exact lookup_setAttr_same a "data-img-id" (uuidTok ctr)
      · simp only [List.map_cons, List.length_cons]
        rw [idsFrom]
        congr 1
      · simp only [List.length_cons]
        rw [ih3]
        omega

/-- Tagging walk invariant, forest form. -/
theorem tagImgsForest_spec : ∀ (f : Forest) (ctr : Nat),
    (collectForest isSrcImg (tagImgsForest f ctr).1).map imgIdOf
        = (tagImgsForest f ctr).2.1.map (fun r => some r.id)
    ∧ (tagImgsForest f ctr).2.1.map (fun r => r.id)
        = idsFrom ctr (tagImgsForest f ctr).2.1.length
    ∧ (tagImgsForest f ctr).2.2 = ctr + (tagImgsForest f ctr).2.1.length
| .nil, ctr => by
    refine ⟨?_, ?_, ?_⟩ <;> simp [tagImgsForest, collectForest, idsFrom]
| .cons n rest, ctr => by
    obtain ⟨ih1, ih2, ih3⟩ := tagImgsNode_spec n ctr
    obtain ⟨jh1, jh2, jh3⟩ := tagImgsForest_spec rest (tagImgsNode n ctr).2.2
    have heq : tagImgsForest (.cons n rest) ctr
        = (.cons (tagImgsNode n ctr).1 (tagImgsForest rest (tagImgsNode n ctr).2.2).1,
           (tagImgsNode n ctr).2.1 ++ (tagImgsForest rest (tagImgsNode n ctr).2.2).2.1,
           (tagImgsForest rest (tagImgsNode n ctr).2.2).2.2) := by
      simp [tagImgsForest]
    rw [heq]
    refine ⟨?_, ?_, ?_⟩
    · rw [collectForest]
      rw [List.map_append, List.map_append, ih1, jh1]
    · rw [List.map_append, ih2, jh2, List.length_append, ih3]
      exact (idsFrom_append _ _ _).symm
    · rw [List.length_append, jh3, ih3]
      omega

end

/-- Synthesis walk invariant: starting from content with no truthy-src images,
the id attributes of the inserted images are, up to the sibling-insertion
reordering, exactly the recorded ImageRef ids, and those ids are a fresh run
starting at the incoming counter. -/
theorem insertImgs_spec (orig : List String) (horig : ∀ u ∈ orig, u ≠ "") :
    ∀ (f : Forest) (st : InsState),
      collectForest isSrcImg f = [] →
      ((collectForest isSrcImg (insertImgsForest orig f st).1).map imgIdOf).Perm
          ((insertImgsForest orig f st).2.1.map (fun r => some r.id))
      ∧ (insertImgsForest orig f st).2.1.map (fun r => r.id)
          = idsFrom st.ctr ((insertImgsForest orig f st).2.1.length)
      ∧ ((insertImgsForest orig f st).2.2).ctr
          = st.ctr + (insertImgsForest orig f st).2.1.length
| .nil, st, hf => by
    refine ⟨?_, ?_, ?_⟩ <;> simp [insertImgsForest, collectForest, idsFrom]
| .cons (.text s) rest, st, hf => by
    have hrest : collectForest isSrcImg rest = [] := by
      rw [collectForest] at hf
      exact (List.append_eq_nil.mp hf).2
    obtain ⟨ih1, ih2, ih3⟩ := insertImgs_spec orig horig rest st hrest
    have heq : insertImgsForest orig (.cons (.text s) rest) st
        = (.cons (.text s) (insertImgsForest orig rest st).1,
           (insertImgsForest orig rest st).2.1,
           (insertImgsForest orig rest st).2.2) := by
      rw [insertImgsForest]
    rw [heq]
    refine ⟨?_, ih2, ih3⟩
    rw [collectForest]
    simp only [collectNode, isSrcImg, Bool.false_eq_true, if_false, List.nil_append]
    exact ih1
| .cons (.elem t a kids) rest, st, hf => by
    rw [collectForest, collectNode] at hf
    have hns : isSrcImg (.elem t a kids) = false := by
      cases hh : isSrcImg (.elem t a kids) with
      | false => rfl
      | true => rw [hh] at hf; simp at hf
    rw [hns] at hf
    simp only [Bool.false_eq_true, if_false, List.nil_append] at hf
    have hkids : collectForest isSrcImg kids = [] := (List.append_eq_nil.mp hf).1
    have hrest : collectForest isSrcImg rest = [] := (List.append_eq_nil.mp hf).2
    by_cases hp : (t == "p") = true
    · by_cases hcond : 0 < st.pIdx ∧ st.pIdx % 3 = 0 ∧ st.imgIdx < orig.length
      · -- insertion branch
        obtain ⟨ih1, ih2, ih3⟩ := insertImgs_spec orig horig kids
          ⟨st.pIdx + 1, st.imgIdx + 1, st.ctr + 1⟩ hkids
        obtain ⟨jh1, jh2, jh3⟩ := insertImgs_spec orig horig rest
          (insertImgsForest orig kids ⟨st.pIdx + 1, st.imgIdx + 1, st.ctr + 1⟩).2.2 hrest
        have hu : orig.getD st.imgIdx "" ≠ "" := by
          have hlt := hcond.2.2
          have h1 : orig.getD st.imgIdx "" = orig[st.imgIdx] := by
            simp [List.getD_eq_getElem?_getD, List.getElem?_eq_getElem hlt]
          rw [h1]
          exact horig _ (List.getElem_mem hlt)
        have heq : insertImgsForest orig (.cons (.elem t a kids) rest) st
            = (.cons (.elem t a (insertImgsForest orig kids
                  ⟨st.pIdx + 1, st.imgIdx + 1, st.ctr + 1⟩).1)
                 (.cons (.elem "img" [("src", orig.getD st.imgIdx ""),
                     ("data-img-id", uuidTok st.ctr)] .nil)
                   (insertImgsForest orig rest (insertImgsForest orig kids
                      ⟨st.pIdx + 1, st.imgIdx + 1, st.ctr + 1⟩).2.2).1),
               ⟨uuidTok st.ctr, orig.getD st.imgIdx "", ""⟩
                 :: ((insertImgsForest orig kids
                      ⟨st.pIdx + 1, st.imgIdx + 1, st.ctr + 1⟩).2.1
                   ++ (insertImgsForest orig rest (insertImgsForest orig kids
                        ⟨st.pIdx + 1, st.imgIdx + 1, st.ctr + 1⟩).2.2).2.1),
               (insertImgsForest orig rest (insertImgsForest orig kids
                  ⟨st.pIdx + 1, st.imgIdx + 1, st.ctr + 1⟩).2.2).2.2) := by
          rw [insertImgsForest, if_pos hp, if_pos hcond]
        rw [heq]
        have hns2 : isSrcImg (.elem t a (insertImgsForest orig kids
            ⟨st.pIdx + 1, st.imgIdx + 1, st.ctr + 1⟩).1) = false := hns
        have himg : isSrcImg (.elem "img" [("src", orig.getD st.imgIdx ""),
            ("data-img-id", uuidTok st.ctr)] .nil) = true := by
          show ("img" == "img"
            && truthyOpt (some (orig.getD st.imgIdx ""))) = true
          refine (Bool.and_eq_true _ _).mpr ⟨rfl, ?_⟩
          show (!((orig.getD st.imgIdx "") == "")) = true
          simpa using hu
        refine ⟨?_, ?_, ?_⟩
        · rw [collectForest, collectForest, collectNode, collectNode]
          rw [hns2, if_pos himg]
          simp only [Bool.false_eq_true, if_false, List.nil_append,
            List.singleton_append, collectForest, List.append_nil, List.map_append,
            List.map_cons]
          refine List.Perm.trans List.perm_middle ?_
          have hid : imgIdOf (.elem "img" [("src", orig.getD st.imgIdx ""),
              ("data-img-id", uuidTok st.ctr)] .nil) = some (uuidTok st.ctr) := rfl
          rw [hid]
          exact (ih1.append jh1).cons _
        · simp only [List.map_cons, List.length_cons, List.map_append,
            List.length_append]
          rw [idsFrom]
          congr 1
          rw [ih2, jh2, ih3]
          have hc : (⟨st.pIdx + 1, st.imgIdx + 1, st.ctr + 1⟩ : InsState).ctr
              = st.ctr + 1 := rfl
          rw [hc]
          exact (idsFrom_append _ _ _).symm
        · simp only [List.length_cons, List.length_append]
          rw [jh3, ih3]
          have hc2 : (⟨st.pIdx + 1, st.imgIdx + 1, st.ctr + 1⟩ : InsState).ctr
              = st.ctr + 1 := rfl
          rw [hc2]
          omega
      · -- paragraph without insertion
        obtain ⟨ih1, ih2, ih3⟩ := insertImgs_spec orig horig kids
          ⟨st.pIdx + 1, st.imgIdx, st.ctr⟩ hkids
        obtain ⟨jh1, jh2, jh3⟩ := insertImgs_spec orig horig rest
          (insertImgsForest orig kids ⟨st.pIdx + 1, st.imgIdx, st.ctr⟩).2.2 hrest
        have heq : insertImgsForest orig (.cons (.elem t a kids) rest) st
            = (.cons (.elem t a (insertImgsForest orig kids
                  ⟨st.pIdx + 1, st.imgIdx, st.ctr⟩).1)
                 (insertImgsForest orig rest (insertImgsForest orig kids
                    ⟨st.pIdx + 1, st.imgIdx, st.ctr⟩).2.2).1,
               (insertImgsForest orig kids ⟨st.pIdx + 1, st.imgIdx, st.ctr⟩).2.1
                 ++ (insertImgsForest orig rest (insertImgsForest orig kids
                      ⟨st.pIdx + 1, st.imgIdx, st.ctr⟩).2.2).2.1,
               (insertImgsForest orig rest (insertImgsForest orig kids
                  ⟨st.pIdx + 1, st.imgIdx, st.ctr⟩).2.2).2.2) := by
          rw [insertImgsForest, if_pos hp, if_neg hcond]
        rw [heq]
        have hns2 : isSrcImg (.elem t a (insertImgsForest orig kids
            ⟨st.pIdx + 1, st.imgIdx, st.ctr⟩).1) = false := hns
        refine ⟨?_, ?_, ?_⟩
        · rw [collectForest, collectNode, hns2]
          simp only [Bool.false_eq_true, if_false, List.nil_append, List.map_append]
          exact ih1.append jh1
        · simp only [List.map_append, List.length_append]
          rw [ih2, jh2, ih3]
          have hc : (⟨st.pIdx + 1, st.imgIdx, st.ctr⟩ : InsState).ctr = st.ctr := rfl
          rw [hc]
          exact (idsFrom_append _ _ _).symm
        · simp only [List.length_append]
          rw [jh3, ih3]
          have hc2 : (⟨st.pIdx + 1, st.imgIdx, st.ctr⟩ : InsState).ctr = st.ctr := rfl
          rw [hc2]
          omega
    · -- non-paragraph element
      obtain ⟨ih1, ih2, ih3⟩ := insertImgs_spec orig horig kids st hkids
      obtain ⟨jh1, jh2, jh3⟩ := insertImgs_spec orig horig rest
        (insertImgsForest orig kids st).2.2 hrest
      have heq : insertImgsForest orig (.cons (.elem t a kids) rest) st
          = (.cons (.elem t a (insertImgsForest orig kids st).1)
               (insertImgsForest orig rest (insertImgsForest orig kids st).2.2).1,
             (insertImgsForest orig kids st).2.1
               ++ (insertImgsForest orig rest
                    (insertImgsForest orig kids st).2.2).2.1,
             (insertImgsForest orig rest (insertImgsForest orig kids st).2.2).2.2) := by
        rw [insertImgsForest, if_neg hp]
      rw [heq]
      have hns2 : isSrcImg (.elem t a (insertImgsForest orig kids st).1) = false := hns
      refine ⟨?_, ?_, ?_⟩
      · rw [collectForest, collectNode, hns2]
        simp only [Bool.false_eq_true, if_false, List.nil_append, List.map_append]
        exact ih1.append jh1
      · simp only [List.map_append, List.length_append]
        rw [ih2, jh2, ih3]
        exact (idsFrom_append _ _ _).symm
      · simp only [List.length_append]
        rw [jh3, ih3]
        omega

/-- Content whose only element is an `<img>` with no `src` attribute. -/
def exC4Content : Forest := singleton (Node.elem "img" [] Forest.nil)

/-- C4 counterexample: an `<img>` without a `src` attribute survives Image
Placement Resolution untagged — it remains in `content_html`, carries no id,
and no ImageRef is created for it, so the claimed id bijection over ALL
`<img>` elements fails. -/
theorem c4_counterexample :
    (processImages exC4Content []).1 = singleton (Node.elem "img" [] Forest.nil)
    ∧ (processImages exC4Content []).2 = []
    ∧ imgIdOf (Node.elem "img" [] Forest.nil) = none :=
  ⟨rfl, rfl, rfl⟩

/-- C4 (amended): restricted to `<img>` elements with a truthy `src`, the ids
form a bijection after Image Placement Resolution: the `data-img-id`
attributes carried by those images are, as a multiset, exactly the recorded
ImageRef ids, and those ids are pairwise distinct — for every content tree
and every harvested list of nonempty URLs. -/
theorem c4_id_bijection (soup : Forest) (orig : List String)
    (horig : ∀ u ∈ orig, u ≠ "") :
    ((srcImgs (processImages soup orig).1).map imgIdOf).Perm
        ((processImages soup orig).2.map (fun r => some r.id))
    ∧ ((processImages soup orig).2.map (fun r => r.id)).Nodup := by
  obtain ⟨th1, th2, th3⟩ := tagImgsForest_spec soup 0
  by_cases hb : ((tagImgsForest soup 0).2.1.isEmpty && !orig.isEmpty) = true
  · have heq : processImages soup orig
        = ((insertImgsForest orig (tagImgsForest soup 0).1 ⟨0, 0, 0⟩).1,
           (insertImgsForest orig (tagImgsForest soup 0).1 ⟨0, 0, 0⟩).2.1) := by
      rw [processImages, if_pos hb]
    have hrefs : (tagImgsForest soup 0).2.1 = [] :=
      List.isEmpty_iff.mp ((Bool.and_eq_true _ _).mp hb).1
    have hsrc : collectForest isSrcImg (tagImgsForest soup 0).1 = [] := by
      have h2 := th1
      rw [hrefs] at h2
      simp only [List.map_nil] at h2
      exact List.map_eq_nil_iff.mp h2
    obtain ⟨i1, i2, i3⟩ :=
      insertImgs_spec orig horig (tagImgsForest soup 0).1 ⟨0, 0, 0⟩ hsrc
    rw [heq]
    refine ⟨i1, ?_⟩
    rw [i2]
    exact idsFrom_nodup _ _
  · have heq : processImages soup orig
        = ((tagImgsForest soup 0).1, (tagImgsForest soup 0).2.1) := by
      rw [processImages, if_neg hb]
    rw [heq]
    constructor
    · show ((collectForest isSrcImg (tagImgsForest soup 0).1).map imgIdOf).Perm _
      rw [th1]
    · rw [th2]
      exact idsFrom_nodup _ _

/-- Witness for `c4_id_bijection` at a one-image content tree. -/
theorem c4_id_bijection_witness :
    ((srcImgs (processImages (singleton (Node.elem "img" [("src", "x.png")]
          Forest.nil)) []).1).map imgIdOf).Perm
        ((processImages (singleton (Node.elem "img" [("src", "x.png")]
          Forest.nil)) []).2.map (fun r => some r.id))
    ∧ ((processImages (singleton (Node.elem "img" [("src", "x.png")]
          Forest.nil)) []).2.map (fun r => r.id)).Nodup :=
  c4_id_bijection (singleton (Node.elem "img" [("src", "x.png")] Forest.nil)) []
    (by simp)

/-- Page-layout primitives produced by `create_pdf` (ReportLab flowables):
a styled paragraph, a spacer, or an image frame for a downloaded file. -/
inductive Flowable where
| para : String → String → Flowable
| spacer : ℚ → ℚ → Flowable
| image : String → Flowable

def inch : ℚ := 72

/-- `max_width = 6 * inch` (line 261) — the page usable width the renderer
scales images to. -/
def max_width : ℚ := 6 * inch

/-- Lines 259–266: scale an image to fit the page width, preserving the
aspect ratio (`ReportLab` float arithmetic modelled over `ℚ`). -/
def scaleImage (drawWidth drawHeight : ℚ) : ℚ × ℚ :=
  if max_width < drawWidth then (max_width, drawHeight * (max_width / drawWidth))
  else (drawWidth, drawHeight)

/-- The tag list of the renderer traversal (line 218). -/
def blockTags : List String :=
  ["h1", "h2", "h3", "h4", "h5", "h6", "p", "img", "pre", "code", "ul", "ol",
   "li", "div"]

/-- The descendant check of the `div` branch (line 248) — `div` itself is
absent from this list. -/
def divCheckTags : List String :=
  ["h1", "h2", "h3", "h4", "h5", "h6", "p", "img", "pre", "code", "ul", "ol",
   "li"]

/-- `img_id and img_id in image_files` (lines 257–258): the downloaded-file
path for the element's id, when the download succeeded. -/
def imgResolved (files : List (String × String)) (a : List (String × String)) :
    Option String :=
  match a.lookup "data-img-id" with
  | some i => if i == "" then none else files.lookup i
  | none => none

/-- Lines 218–267: the flowables contributed by one element of the `find_all`
traversal (the elif chain of `create_pdf`). -/
def renderElement (files : List (String × String)) (n : Node) : List Flowable :=
  match n with
  | .text _ => []
  | .elem t a kids =>
      if t == "h1" then
        [.para (pyStrip (getTextForest kids)) "Title", .spacer 1 (25 / 100 * inch)]
      else if t == "h2" then
        [.para (pyStrip (getTextForest kids)) "Heading1", .spacer 1 (15 / 100 * inch)]
      else if t == "h3" || t == "h4" || t == "h5" || t == "h6" then
        [.para (pyStrip (getTextForest kids)) "Heading2", .spacer 1 (1 / 10 * inch)]
      else if t == "p" then
        (if pyStrip (getTextForest kids) == "" then []
         else [.para (pyStrip (getTextForest kids)) "Normal",
               .spacer 1 (1 / 10 * inch)])
      else if t == "pre" || t == "code" then
        (if pyStrip (getTextForest kids) == "" then []
         else [.para (pyStrip (getTextForest kids)) "Code",
               .spacer 1 (1 / 10 * inch)])
      else if t == "ul" || t == "ol" then []
      else if t == "li" then
        (if pyStrip (getTextForest kids) == "" then []
         else [.para ("â€¢ " ++ pyStrip (getTextForest kids)) "Normal",
               .spacer 1 (5 / 100 * inch)])
      else if t == "div" then
        (if (findAllForest divCheckTags kids).isEmpty then
           (if pyStrip (getTextForest kids) == "" then []
            else [.para (pyStrip (getTextForest kids)) "Normal",
                  .spacer 1 (1 / 10 * inch)])
         else [])
      else if t == "img" then
        (match imgResolved files a with
         | some path => [.image path, .spacer 1 (1 / 10 * inch)]
         | none => [])
      else []

/-- The renderer's element loop over the whole content (lines 218–267). -/
def buildElements (content : Forest) (files : List (String × String)) :
    List Flowable :=
  (findAllForest blockTags content).flatMap (renderElement files)

/-- The texts of the emitted Paragraph/Heading flowables, in order. -/
def emittedTexts (l : List Flowable) : List String :=
  l.filterMap (fun fl => match fl with
    | .para s _ => some s
    | _ => none)

/-- A div nested directly inside a div, both wrapping the same text. -/
def exC1Content : Forest :=
  singleton (Node.elem "div" [] (singleton (Node.elem "div" []
    (singleton (Node.text "hello")))))

/-- C1 (code bug): for `<div><div>hello</div></div>` the renderer emits the
text twice — the `div` skip-check list (line 248) omits `div`, so the outer
div sees no "block-bearing" descendant and emits its text, and the inner div
emits the same text again, contradicting both the spec's no-duplication
invariant and the code's own comment at lines 247–249. -/
theorem c1_duplicate_div_text :
    emittedTexts (buildElements exC1Content []) = ["hello", "hello"]
    ∧ ¬ (emittedTexts (buildElements exC1Content [])).Nodup := by
  exact ⟨by decide, by decide⟩

/-- Lines 26–39, `download_image`: `none` response models the exception path
(network error); the decoder returning `none` models `PILImage.open` failing;
bytes are decoded only when the HTTP status is exactly 200. -/
def download_image {B I : Type} (decode : B → Option I)
    (response : Option (Nat × B)) : Option I :=
  match response with
  | none => none
  | some (st, b) => if st == 200 then decode b else none

/-- An `<img>` element whose id resolves to no downloaded file — the blocks
the renderer must silently omit. -/
def isFailedImg (files : List (String × String)) (n : Node) : Bool :=
  match n with
  | .elem t a _ => t == "img" && (imgResolved files a).isNone
  | .text _ => false

/-- Elements contributing nothing can be dropped from a traversal without
changing its output. -/
theorem flatMap_skip_nil {α β : Type _} (f : α → List β) (p : α → Bool)
    (h : ∀ x, p x = false → f x = []) : ∀ l : List α,
    l.flatMap f = (l.filter p).flatMap f := by
  intro l
  induction l with
  | nil => rfl
  | cons x xs ih =>
    rw [List.flatMap_cons, List.filter_cons]
    cases hp : p x with
    | true => simp only [hp, if_pos trivial, List.flatMap_cons, ih]
    | false =>
      rw [h x hp]
      simp only [List.nil_append, Bool.false_eq_true, if_false]
      exact ih

/-- C8: a failed image retrieval (network error response, non-200 status, or
decode failure) yields no downloaded file; an `<img>` block whose id has no
downloaded file contributes no flowable, and the remaining blocks render
exactly as if the failed image blocks were absent. -/
theorem c8_failed_fetch_omitted {B I : Type} (decode : B → Option I)
    (files : List (String × String)) (soup : Forest) :
    download_image decode none = none
    ∧ (∀ (st : Nat) (b : B), st ≠ 200 → download_image decode (some (st, b)) = none)
    ∧ (∀ b : B, decode b = none → download_image decode (some (200, b)) = none)
    ∧ (∀ n, isFailedImg files n = true → renderElement files n = [])
    ∧ buildElements soup files
        = ((findAllForest blockTags soup).filter
            (fun n => !(isFailedImg files n))).flatMap (renderElement files) := by
  have hrender : ∀ n, isFailedImg files n = true → renderElement files n = [] := by
    intro n hn
    cases n with
    | text s => rfl
    | elem t a kids =>
      simp only [isFailedImg, Bool.and_eq_true, beq_iff_eq] at hn
      obtain ⟨ht, hnone⟩ := hn
      subst ht
      rw [Option.isNone_iff_eq_none] at hnone
      simp [renderElement, hnone]
  refine ⟨rfl, ?_, ?_, hrender, ?_⟩
  · intro st b hst
    simp [download_image, beq_eq_false_iff_ne.mpr hst]
  · intro b hd
    simp [download_image, hd]
  · exact flatMap_skip_nil (renderElement files) (fun n => !(isFailedImg files n))
      (by
        intro x hx
        apply hrender
        simpa using hx)
      (findAllForest blockTags soup)

/-- Witness for `c8_failed_fetch_omitted` at a 404 response and a concrete
unresolved image element. -/
theorem c8_failed_fetch_omitted_witness :
    download_image (fun _ : Nat => (none : Option Nat)) (some (404, 7)) = none
    ∧ renderElement [] (Node.elem "img" [("data-img-id", "u")] Forest.nil) = [] :=
  ⟨(c8_failed_fetch_omitted (fun _ : Nat => (none : Option Nat)) [] Forest.nil).2.1
      404 7 (by decide),
   (c8_failed_fetch_omitted (fun _ : Nat => (none : Option Nat)) [] Forest.nil).2.2.2.1
      (Node.elem "img" [("data-img-id", "u")] Forest.nil) (by decide)⟩

/-- C10: an image wider than the usable page width is rendered at exactly the
usable width with height `naturalHeight * usableWidth / naturalWidth`
(aspect ratio preserved: renderedWidth * h = renderedHeight * w); an image
that fits keeps its natural dimensions. -/
theorem c10_scale_to_width (w h : ℚ) :
    (max_width < w →
      scaleImage w h = (max_width, h * max_width / w)
      ∧ (scaleImage w h).1 * h = (scaleImage w h).2 * w)
    ∧ (¬ max_width < w → scaleImage w h = (w, h)) := by
  constructor
  · intro hw
    have he : scaleImage w h = (max_width, h * (max_width / w)) := by
      unfold scaleImage
      rw [if_pos hw]
    have hw0 : w ≠ 0 := by
      have h1 : (0 : ℚ) < w := lt_trans (by norm_num [max_width, inch]) hw
      exact ne_of_gt h1
    constructor
    · rw [he, mul_div_assoc]
    · rw [he]
      show max_width * h = h * (max_width / w) * w
      field_simp
      ring
  · intro hw
    unfold scaleImage
    rw [if_neg hw]

/-- Witness for `c10_scale_to_width` at a 864-wide, 100-high image. -/
theorem c10_scale_to_width_witness :
    scaleImage 864 100 = (max_width, 100 * max_width / 864) :=
  ((c10_scale_to_width 864 100).1 (by norm_num [max_width, inch])).1
